import Mathlib

/-!
Verification development for the Pong component in src/pong.tsx.

The per-frame simulation loop of the component is embedded shallowly:
positions and velocities become rationals, the imperative update function
(src/pong.tsx lines 282 to 327) becomes a pure function from a loop state
and a per-frame randomness stream to a new loop state plus the side effect
events it requests (sounds, particle bursts, the detected scoring side).
The surrounding React component (useState flags, the game loop useEffect
with its dependency array, and the winner-check useEffect) becomes a
session type with a step function over discrete events; re-running the
loop effect re-creates the loop-local variables, exactly as React does
when a value in the dependency array changes.
-/

namespace Pong

/-- Fixed canvas width in pixels (the canvas element, src/pong.tsx line 396). -/
def canvasWidth : ℚ := 800

/-- Fixed canvas height in pixels (src/pong.tsx line 396). -/
def canvasHeight : ℚ := 600

/-- Ball radius (src/pong.tsx line 162). -/
def ballRadius : ℚ := 8

/-- Serve speed of the ball, 0.3 (src/pong.tsx lines 163 and 315). -/
def ballSpeed : ℚ := 3/10

/-- Paddle height (src/pong.tsx line 167). -/
def paddleHeight : ℚ := 100

/-- Paddle width (src/pong.tsx line 168). -/
def paddleWidth : ℚ := 10

/-- Paddle speed per frame, 0.4 (src/pong.tsx lines 171 and 175). -/
def paddleSpeed : ℚ := 2/5

/-- Particle life decay per frame, 0.005 (src/pong.tsx line 225). -/
def particleDecay : ℚ := 1/200

/-- Win threshold (src/pong.tsx lines 349 and 353). -/
def winScore : ℕ := 15

/-- A visual effect particle (src/pong.tsx Particle interface, lines 16 to 22). -/
structure Particle where
  x : ℚ
  y : ℚ
  dx : ℚ
  dy : ℚ
  life : ℚ
deriving DecidableEq

/-- Held-key flags tracked by the loop (src/pong.tsx lines 179 to 184). -/
structure Keys where
  w : Bool
  s : Bool
  arrowUp : Bool
  arrowDown : Bool
deriving DecidableEq

/-- The loop-local mutable variables of the game loop effect
(ball, the two paddles, the particle list and the key flags,
src/pong.tsx lines 155 to 184). -/
structure LoopState where
  ballX : ℚ
  ballY : ℚ
  ballDx : ℚ
  ballDy : ℚ
  paddle1Y : ℚ
  paddle2Y : ℚ
  particles : List Particle
  keys : Keys
deriving DecidableEq

/-- The loop-local state as the effect body creates it
(src/pong.tsx lines 159 to 184). -/
def initLoop : LoopState :=
  { ballX := canvasWidth / 2
    ballY := canvasHeight / 2
    ballDx := ballSpeed
    ballDy := ballSpeed
    paddle1Y := canvasHeight / 2 - paddleHeight / 2
    paddle2Y := canvasHeight / 2 - paddleHeight / 2
    particles := []
    keys := { w := false, s := false, arrowUp := false, arrowDown := false } }

/-- createParticles (src/pong.tsx lines 208 to 218): push count particles at
the given position with randomized velocities and life 1. The rng stream
supplies the Math.random outputs in pairs, one pair per particle. -/
def createParticles (rng : ℕ → ℚ × ℚ) (x y : ℚ) (count : ℕ)
    (ps : List Particle) : List Particle :=
  ps ++ (List.range count).map fun i =>
    { x := x
      y := y
      dx := ((rng i).1 - 1/2) * (1/5)
      dy := ((rng i).2 - 1/2) * (1/5)
      life := 1 }

/-- One advance of a single particle (the mutation inside the filter body,
src/pong.tsx lines 223 to 225). -/
def advanceParticle (p : Particle) : Particle :=
  { p with x := p.x + p.dx, y := p.y + p.dy, life := p.life - particleDecay }

/-- updateParticles (src/pong.tsx lines 221 to 228): advance every particle
and keep only those whose life is still positive. -/
def updateParticles (ps : List Particle) : List Particle :=
  (ps.map advanceParticle).filter fun p => decide (0 < p.life)

/-- One paddle movement step (src/pong.tsx lines 284 to 287): move up if the
up key is held and y is positive, then move down if the down key is held and
y is below the lower limit; the second guard reads the already moved y. -/
def movePaddle (upHeld downHeld : Bool) (y : ℚ) : ℚ :=
  let y1 := if upHeld = true ∧ y > 0 then y - paddleSpeed else y
  if downHeld = true ∧ y1 < canvasHeight - paddleHeight then y1 + paddleSpeed else y1

/-- The top or bottom wall condition tested on the moved ball
(src/pong.tsx line 294). -/
def wallTouch (l : LoopState) : Prop :=
  l.ballY + l.ballDy + ballRadius > canvasHeight ∨
  l.ballY + l.ballDy - ballRadius < 0

instance (l : LoopState) : Decidable (wallTouch l) :=
  inferInstanceAs (Decidable (_ ∨ _))

/-- The paddle collision condition on given ball and paddle coordinates
(src/pong.tsx lines 301 to 304). -/
def paddleContact (bx by0 p1 p2 : ℚ) : Prop :=
  (bx - ballRadius < paddleWidth ∧ by0 > p1 ∧ by0 < p1 + paddleHeight) ∨
  (bx + ballRadius > canvasWidth - paddleWidth ∧ by0 > p2 ∧ by0 < p2 + paddleHeight)

instance (bx by0 p1 p2 : ℚ) : Decidable (paddleContact bx by0 p1 p2) :=
  inferInstanceAs (Decidable (_ ∨ _))

/-- The paddle collision condition as the frame evaluates it: on the moved
ball against the already moved paddles (paddles move first in update). -/
def contact (l : LoopState) : Prop :=
  paddleContact (l.ballX + l.ballDx) (l.ballY + l.ballDy)
    (movePaddle l.keys.w l.keys.s l.paddle1Y)
    (movePaddle l.keys.arrowUp l.keys.arrowDown l.paddle2Y)

instance (l : LoopState) : Decidable (contact l) :=
  inferInstanceAs (Decidable (paddleContact _ _ _ _))

/-- The left scoring condition on the moved ball (src/pong.tsx line 311). -/
def crossedLeft (l : LoopState) : Prop :=
  l.ballX + l.ballDx + ballRadius < 0

instance (l : LoopState) : Decidable (crossedLeft l) :=
  inferInstanceAs (Decidable (_ < _))

/-- The right scoring condition on the moved ball (src/pong.tsx line 317). -/
def crossedRight (l : LoopState) : Prop :=
  l.ballX + l.ballDx - ballRadius > canvasWidth

instance (l : LoopState) : Decidable (crossedRight l) :=
  inferInstanceAs (Decidable (_ < _))

/-- The side whose counter a frame increments. -/
inductive Side where
  | player1
  | player2
deriving DecidableEq

/-- Sound requests a frame can emit (playSound calls in update,
src/pong.tsx lines 297, 307, 316 and 322). -/
inductive SoundEvent where
  | wall
  | paddle
  | score
deriving DecidableEq

/-- The ball vertical velocity after the wall check (src/pong.tsx line 295). -/
def newBallDy (l : LoopState) : ℚ :=
  if wallTouch l then -l.ballDy else l.ballDy

/-- The ball horizontal velocity after the paddle check and before the
scoring branch (src/pong.tsx line 305). -/
def newBallDx (l : LoopState) : ℚ :=
  if contact l then -l.ballDx else l.ballDx

/-- The particle list after the two possible bursts of the frame
(src/pong.tsx lines 296 and 306): 10 particles on a wall touch, then 15 on a
paddle contact, both at the moved ball position. The second burst continues
the random stream after the first. -/
def spawnedParticles (rng : ℕ → ℚ × ℚ) (l : LoopState) : List Particle :=
  let parts1 :=
    if wallTouch l then
      createParticles rng (l.ballX + l.ballDx) (l.ballY + l.ballDy) 10 l.particles
    else l.particles
  if contact l then
    createParticles (fun i => rng (i + if wallTouch l then 10 else 0))
      (l.ballX + l.ballDx) (l.ballY + l.ballDy) 15 parts1
  else parts1

/-- The sound requests of the frame before the scoring branch. -/
def frameSounds (l : LoopState) : List SoundEvent :=
  (if wallTouch l then [SoundEvent.wall] else []) ++
  (if contact l then [SoundEvent.paddle] else [])

/-- The particle bursts requested by the frame as position and count
(the createParticles calls, src/pong.tsx lines 296 and 306). -/
def frameBursts (l : LoopState) : List (ℚ × ℚ × ℕ) :=
  (if wallTouch l then [(l.ballX + l.ballDx, l.ballY + l.ballDy, 10)] else []) ++
  (if contact l then [(l.ballX + l.ballDx, l.ballY + l.ballDy, 15)] else [])

/-- The full result of one frame of the update function: the new loop state
together with the side effect events the frame requested. -/
structure FrameOut where
  state : LoopState
  sounds : List SoundEvent
  bursts : List (ℚ × ℚ × ℕ)
  scorer : Option Side
deriving DecidableEq

/-- The update function of the game loop (src/pong.tsx lines 282 to 327):
move paddles, move the ball, flip the vertical velocity on a wall touch,
flip the horizontal velocity on a paddle contact, then run the scoring
branch (which recentres the ball and assigns the fixed serve speed), and
finally advance and prune the particles. -/
def update (rng : ℕ → ℚ × ℚ) (l : LoopState) : FrameOut :=
  if crossedLeft l then
    { state :=
        { ballX := canvasWidth / 2
          ballY := canvasHeight / 2
          ballDx := ballSpeed
          ballDy := newBallDy l
          paddle1Y := movePaddle l.keys.w l.keys.s l.paddle1Y
          paddle2Y := movePaddle l.keys.arrowUp l.keys.arrowDown l.paddle2Y
          particles := updateParticles (spawnedParticles rng l)
          keys := l.keys }
      sounds := frameSounds l ++ [SoundEvent.score]
      bursts := frameBursts l
      scorer := some Side.player2 }
  else if crossedRight l then
    { state :=
        { ballX := canvasWidth / 2
          ballY := canvasHeight / 2
          ballDx := -ballSpeed
          ballDy := newBallDy l
          paddle1Y := movePaddle l.keys.w l.keys.s l.paddle1Y
          paddle2Y := movePaddle l.keys.arrowUp l.keys.arrowDown l.paddle2Y
          particles := updateParticles (spawnedParticles rng l)
          keys := l.keys }
      sounds := frameSounds l ++ [SoundEvent.score]
      bursts := frameBursts l
      scorer := some Side.player1 }
  else
    { state :=
        { ballX := l.ballX + l.ballDx
          ballY := l.ballY + l.ballDy
          ballDx := newBallDx l
          ballDy := newBallDy l
          paddle1Y := movePaddle l.keys.w l.keys.s l.paddle1Y
          paddle2Y := movePaddle l.keys.arrowUp l.keys.arrowDown l.paddle2Y
          particles := updateParticles (spawnedParticles rng l)
          keys := l.keys }
      sounds := frameSounds l
      bursts := frameBursts l
      scorer := none }

/-- The tracked movement keys (src/pong.tsx lines 179 to 184). -/
inductive Key where
  | w
  | s
  | up
  | down
deriving DecidableEq

/-- Setting one key flag (handleKeyDown and handleKeyUp,
src/pong.tsx lines 187 to 202). -/
def setKey (k : Key) (v : Bool) (ks : Keys) : Keys :=
  match k with
  | Key.w => { ks with w := v }
  | Key.s => { ks with s := v }
  | Key.up => { ks with arrowUp := v }
  | Key.down => { ks with arrowDown := v }

/-- The React component state visible across frames: the useState values
and, when the loop effect is live, its loop-local variables. -/
structure Session where
  gameStarted : Bool
  gamePaused : Bool
  showControls : Bool
  showSettings : Bool
  showPauseMenu : Bool
  score1 : ℕ
  score2 : ℕ
  winner : Option Side
  loop : Option LoopState
deriving DecidableEq

/-- The initial component state (src/pong.tsx lines 62 to 68). -/
def initialSession : Session :=
  { gameStarted := false
    gamePaused := false
    showControls := false
    showSettings := false
    showPauseMenu := false
    score1 := 0
    score2 := 0
    winner := none
    loop := none }

/-- The dependency values of the game loop effect that our session model
tracks (src/pong.tsx line 345: gameStarted, gamePaused, score.player1,
score.player2; playSound and settings.theme are constant here). -/
def loopDeps (s : Session) : Bool × Bool × ℕ × ℕ :=
  (s.gameStarted, s.gamePaused, s.score1, s.score2)

/-- Running the game loop effect body: if the component is started and not
paused, fresh loop-local variables are created (src/pong.tsx lines 147 to
184); otherwise the body returns early and no loop is live. -/
def runLoopEffect (s : Session) : Session :=
  if s.gameStarted = true ∧ s.gamePaused = false then { s with loop := some initLoop }
  else { s with loop := none }

/-- React semantics of the loop effect: after a state change, the effect
re-runs exactly when a dependency changed, tearing down and re-creating the
loop-local variables. -/
def refresh (old t : Session) : Session :=
  if loopDeps old = loopDeps t then t else runLoopEffect t

/-- The winner-check effect (src/pong.tsx lines 348 to 358), run whenever
the score changed. -/
def checkWinner (s : Session) : Session :=
  if s.score1 ≥ winScore then { s with winner := some Side.player1, gameStarted := false }
  else if s.score2 ≥ winScore then { s with winner := some Side.player2, gameStarted := false }
  else s

/-- Discrete events driving the component: an animation frame (with the
randomness it consumes), key transitions, the escape key, the on-canvas
pause button, and the menu buttons. -/
inductive Event where
  | frame (rng : ℕ → ℚ × ℚ)
  | keyDown (k : Key)
  | keyUp (k : Key)
  | escape
  | pauseButton
  | resume
  | openSettings
  | closeSettings
  | quit
  | start

/-- One step of the component under an event. A frame only runs while the
loop effect is live (the effect returns early otherwise and schedules no
callback); key listeners likewise only exist while the effect is live. The
menu handlers mirror handleStart, handleResume and handleQuit
(src/pong.tsx lines 360 to 384), and every state change is followed by the
effect re-run rule refresh. -/
def step (e : Event) (s : Session) : Session :=
  match e with
  | Event.frame rng =>
    match s.loop with
    | none => s
    | some l =>
      let out := update rng l
      match out.scorer with
      | none => refresh s { s with loop := some out.state }
      | some Side.player1 =>
          refresh s (checkWinner { s with score1 := s.score1 + 1, loop := some out.state })
      | some Side.player2 =>
          refresh s (checkWinner { s with score2 := s.score2 + 1, loop := some out.state })
  | Event.keyDown k =>
    match s.loop with
    | some l => { s with loop := some { l with keys := setKey k true l.keys } }
    | none => s
  | Event.keyUp k =>
    match s.loop with
    | some l => { s with loop := some { l with keys := setKey k false l.keys } }
    | none => s
  | Event.escape =>
    match s.loop with
    | some _ => refresh s { s with gamePaused := true, showPauseMenu := true }
    | none => s
  | Event.pauseButton =>
    if s.gameStarted = true ∧ s.showPauseMenu = false then { s with showPauseMenu := true }
    else s
  | Event.resume =>
    refresh s { s with gamePaused := false, showPauseMenu := false }
  | Event.openSettings =>
    if s.showPauseMenu = true then { s with showSettings := true } else s
  | Event.closeSettings =>
    { s with showSettings := false }
  | Event.quit =>
    refresh s { s with gameStarted := false, gamePaused := false, showPauseMenu := false,
                       score1 := 0, score2 := 0, winner := none }
  | Event.start =>
    if s.gameStarted = false ∧ s.showControls = false then { s with showControls := true }
    else
      refresh s { s with gameStarted := true, showControls := false, score1 := 0, score2 := 0,
                         winner := none, gamePaused := false, showPauseMenu := false }

/-- The sessions reachable from the initial component state. -/
inductive Reach : Session → Prop where
  | init : Reach initialSession
  | next (e : Event) {s : Session} : Reach s → Reach (step e s)

/-! ### Shared concrete data and small step lemmas -/

/-- A fixed randomness stream for concrete runs (its values are never
consumed in the runs below, which spawn no particles). -/
def rng0 : ℕ → ℚ × ℚ := fun _ => (1/2, 1/2)

/-- The session right after the start intent is confirmed: pressing start
twice from the initial state (first press shows the controls). -/
def sPlay : Session := step Event.start (step Event.start initialSession)

theorem sPlay_eq :
    sPlay = { gameStarted := true, gamePaused := false, showControls := false,
              showSettings := false, showPauseMenu := false, score1 := 0, score2 := 0,
              winner := none, loop := some initLoop } := rfl

theorem refresh_eq {old t : Session} (h : loopDeps old = loopDeps t) :
    refresh old t = t := if_pos h

theorem refresh_ne {old t : Session} (h : loopDeps old ≠ loopDeps t) :
    refresh old t = runLoopEffect t := if_neg h

theorem runLoopEffect_playing (t : Session) (h1 : t.gameStarted = true)
    (h2 : t.gamePaused = false) : runLoopEffect t = { t with loop := some initLoop } := by
  unfold runLoopEffect
  rw [if_pos ⟨h1, h2⟩]

theorem runLoopEffect_stopped (t : Session) (h : ¬(t.gameStarted = true ∧ t.gamePaused = false)) :
    runLoopEffect t = { t with loop := none } := by
  unfold runLoopEffect
  rw [if_neg h]

theorem runLoopEffect_loop_some (t : Session) (h1 : t.gameStarted = true)
    (h2 : t.gamePaused = false) : (runLoopEffect t).loop = some initLoop := by
  rw [runLoopEffect_playing t h1 h2]

theorem runLoopEffect_loop_none (t : Session) (h : t.gameStarted = false) :
    (runLoopEffect t).loop = none := by
  have hn : ¬(t.gameStarted = true ∧ t.gamePaused = false) := by
    intro hc
    rw [h] at hc
    exact Bool.false_ne_true hc.1
  rw [runLoopEffect_stopped t hn]

theorem step_frame_none {s : Session} (rng : ℕ → ℚ × ℚ) (h : s.loop = none) :
    step (Event.frame rng) s = s := by
  unfold step
  rw [h]

theorem step_frame_some {s : Session} {l : LoopState} (rng : ℕ → ℚ × ℚ)
    (h : s.loop = some l) :
    step (Event.frame rng) s =
      match (update rng l).scorer with
      | none => refresh s { s with loop := some (update rng l).state }
      | some Side.player1 =>
          refresh s (checkWinner { s with score1 := s.score1 + 1,
                                          loop := some (update rng l).state })
      | some Side.player2 =>
          refresh s (checkWinner { s with score2 := s.score2 + 1,
                                          loop := some (update rng l).state }) := by
  unfold step
  rw [h]

theorem step_keyDown_some {s : Session} {l : LoopState} (k : Key) (h : s.loop = some l) :
    step (Event.keyDown k) s =
      { s with loop := some { l with keys := setKey k true l.keys } } := by
  unfold step
  rw [h]

theorem step_keyDown_none {s : Session} (k : Key) (h : s.loop = none) :
    step (Event.keyDown k) s = s := by
  unfold step
  rw [h]

theorem step_keyUp_some {s : Session} {l : LoopState} (k : Key) (h : s.loop = some l) :
    step (Event.keyUp k) s =
      { s with loop := some { l with keys := setKey k false l.keys } } := by
  unfold step
  rw [h]

theorem step_keyUp_none {s : Session} (k : Key) (h : s.loop = none) :
    step (Event.keyUp k) s = s := by
  unfold step
  rw [h]

theorem step_escape_some {s : Session} {l : LoopState} (h : s.loop = some l) :
    step Event.escape s =
      refresh s { s with gamePaused := true, showPauseMenu := true } := by
  unfold step
  rw [h]

theorem step_escape_none {s : Session} (h : s.loop = none) :
    step Event.escape s = s := by
  unfold step
  rw [h]

theorem step_pauseButton (s : Session) :
    step Event.pauseButton s =
      if s.gameStarted = true ∧ s.showPauseMenu = false then { s with showPauseMenu := true }
      else s := rfl

theorem step_resume (s : Session) :
    step Event.resume s =
      refresh s { s with gamePaused := false, showPauseMenu := false } := rfl

theorem step_openSettings (s : Session) :
    step Event.openSettings s =
      if s.showPauseMenu = true then { s with showSettings := true } else s := rfl

theorem step_closeSettings (s : Session) :
    step Event.closeSettings s = { s with showSettings := false } := rfl

theorem step_quit (s : Session) :
    step Event.quit s =
      refresh s { s with gameStarted := false, gamePaused := false, showPauseMenu := false,
                         score1 := 0, score2 := 0, winner := none } := rfl

theorem step_start (s : Session) :
    step Event.start s =
      if s.gameStarted = false ∧ s.showControls = false then { s with showControls := true }
      else
        refresh s { s with gameStarted := true, showControls := false, score1 := 0, score2 := 0,
                           winner := none, gamePaused := false, showPauseMenu := false } := rfl

/-- The scoring decision of a frame, read off the update function
(src/pong.tsx lines 311 and 317): left crossing scores for player two,
right crossing for player one, and the two branches are an if-else chain. -/
theorem update_scorer (rng : ℕ → ℚ × ℚ) (l : LoopState) :
    (update rng l).scorer =
      if crossedLeft l then some Side.player2
      else if crossedRight l then some Side.player1
      else none := by
  unfold update
  split_ifs <;> rfl

theorem update_state_dy (rng : ℕ → ℚ × ℚ) (l : LoopState) :
    (update rng l).state.ballDy = newBallDy l := by
  unfold update
  split_ifs <;> rfl

theorem update_state_dx (rng : ℕ → ℚ × ℚ) (l : LoopState) :
    (update rng l).state.ballDx =
      if crossedLeft l then ballSpeed
      else if crossedRight l then -ballSpeed
      else newBallDx l := by
  unfold update
  split_ifs <;> rfl

theorem update_of_crossedLeft (rng : ℕ → ℚ × ℚ) {l : LoopState} (h : crossedLeft l) :
    update rng l =
      { state :=
          { ballX := canvasWidth / 2
            ballY := canvasHeight / 2
            ballDx := ballSpeed
            ballDy := newBallDy l
            paddle1Y := movePaddle l.keys.w l.keys.s l.paddle1Y
            paddle2Y := movePaddle l.keys.arrowUp l.keys.arrowDown l.paddle2Y
            particles := updateParticles (spawnedParticles rng l)
            keys := l.keys }
        sounds := frameSounds l ++ [SoundEvent.score]
        bursts := frameBursts l
        scorer := some Side.player2 } := by
  unfold update
  rw [if_pos h]

theorem not_crossedLeft_of_crossedRight {l : LoopState} (h : crossedRight l) :
    ¬crossedLeft l := by
  unfold crossedRight at h
  unfold crossedLeft
  unfold ballRadius canvasWidth at *
  intro hc
  linarith

theorem update_of_crossedRight (rng : ℕ → ℚ × ℚ) {l : LoopState} (h : crossedRight l) :
    update rng l =
      { state :=
          { ballX := canvasWidth / 2
            ballY := canvasHeight / 2
            ballDx := -ballSpeed
            ballDy := newBallDy l
            paddle1Y := movePaddle l.keys.w l.keys.s l.paddle1Y
            paddle2Y := movePaddle l.keys.arrowUp l.keys.arrowDown l.paddle2Y
            particles := updateParticles (spawnedParticles rng l)
            keys := l.keys }
        sounds := frameSounds l ++ [SoundEvent.score]
        bursts := frameBursts l
        scorer := some Side.player1 } := by
  unfold update
  rw [if_neg (not_crossedLeft_of_crossedRight h), if_pos h]

theorem update_not_crossed (rng : ℕ → ℚ × ℚ) {l : LoopState}
    (h1 : ¬crossedLeft l) (h2 : ¬crossedRight l) :
    update rng l =
      { state :=
          { ballX := l.ballX + l.ballDx
            ballY := l.ballY + l.ballDy
            ballDx := newBallDx l
            ballDy := newBallDy l
            paddle1Y := movePaddle l.keys.w l.keys.s l.paddle1Y
            paddle2Y := movePaddle l.keys.arrowUp l.keys.arrowDown l.paddle2Y
            particles := updateParticles (spawnedParticles rng l)
            keys := l.keys }
        sounds := frameSounds l
        bursts := frameBursts l
        scorer := none } := by
  unfold update
  rw [if_neg h1, if_neg h2]

/-! ### The reachability invariant of the live loop state -/

/-- Invariant of every live loop state of a reachable session: paddle
positions lie on the 0.4 grid inside the surface, the ball velocity is the
fixed speed up to sign, the ball y lies on the 0.3 grid between 7.8 and
592.2, and beyond a wall threshold the vertical velocity already points
back into the surface. -/
def LoopInv (l : LoopState) : Prop :=
  (∃ a : ℕ, l.paddle1Y = 2 * (a : ℚ) / 5 ∧ a ≤ 1250) ∧
  (∃ b : ℕ, l.paddle2Y = 2 * (b : ℚ) / 5 ∧ b ≤ 1250) ∧
  (l.ballDx = 3/10 ∨ l.ballDx = -(3/10)) ∧
  (l.ballDy = 3/10 ∨ l.ballDy = -(3/10)) ∧
  (∃ n : ℤ, l.ballY = 3 * (n : ℚ) / 10) ∧
  39/5 ≤ l.ballY ∧ l.ballY ≤ 2961/5 ∧
  (592 < l.ballY → l.ballDy = -(3/10)) ∧
  (l.ballY < 8 → l.ballDy = 3/10)

theorem initLoop_loopInv : LoopInv initLoop := by
  unfold LoopInv initLoop canvasWidth canvasHeight paddleHeight ballSpeed
  refine ⟨⟨625, by norm_num⟩, ⟨625, by norm_num⟩, Or.inl (by norm_num),
    Or.inl (by norm_num), ⟨1000, by norm_num⟩, by norm_num, by norm_num,
    by norm_num, by norm_num⟩

theorem movePaddle_grid (u d : Bool) {y : ℚ}
    (h : ∃ a : ℕ, y = 2 * (a : ℚ) / 5 ∧ a ≤ 1250) :
    ∃ a : ℕ, movePaddle u d y = 2 * (a : ℚ) / 5 ∧ a ≤ 1250 := by
  obtain ⟨a, rfl, ha⟩ := h
  simp only [movePaddle, canvasHeight, paddleHeight, paddleSpeed]
  split_ifs with h1 h2 h2
  · exact ⟨a, by ring, ha⟩
  · have hb : (0 : ℚ) < (a : ℚ) := by linarith [h1.2]
    have ha1 : 1 ≤ a := by exact_mod_cast hb
    refine ⟨a - 1, ?_, by omega⟩
    have hc : ((a - 1 : ℕ) : ℚ) = (a : ℚ) - 1 := by
      push_cast [Nat.cast_sub ha1]
      ring
    rw [hc]
    ring
  · have hb : (a : ℚ) < 1250 := by linarith [h2.2]
    have ha1 : a < 1250 := by exact_mod_cast hb
    exact ⟨a + 1, by push_cast; ring, by omega⟩
  · exact ⟨a, rfl, ha⟩

theorem wallTouch_iff (l : LoopState) :
    wallTouch l ↔ 592 < l.ballY + l.ballDy ∨ l.ballY + l.ballDy < 8 := by
  unfold wallTouch canvasHeight ballRadius
  constructor
  · rintro (h | h)
    · exact Or.inl (by linarith)
    · exact Or.inr (by linarith)
  · rintro (h | h)
    · exact Or.inl (by linarith)
    · exact Or.inr (by linarith)

theorem update_loopInv (rng : ℕ → ℚ × ℚ) {l : LoopState} (h : LoopInv l) :
    LoopInv (update rng l).state := by
  obtain ⟨hp1, hp2, hdx, hdy, ⟨n, hy⟩, hlo, hhi, htop, hbot⟩ := h
  have hp1' := movePaddle_grid l.keys.w l.keys.s hp1
  have hp2' := movePaddle_grid l.keys.arrowUp l.keys.arrowDown hp2
  have hdy' : newBallDy l = 3/10 ∨ newBallDy l = -(3/10) := by
    unfold newBallDy
    split_ifs
    · rcases hdy with h | h
      · rw [h]
        exact Or.inr rfl
      · rw [h]
        exact Or.inl (by norm_num)
    · exact hdy
  have hdx' : newBallDx l = 3/10 ∨ newBallDx l = -(3/10) := by
    unfold newBallDx
    split_ifs
    · rcases hdx with h | h
      · rw [h]
        exact Or.inr rfl
      · rw [h]
        exact Or.inl (by norm_num)
    · exact hdx
  by_cases hL : crossedLeft l
  · rw [update_of_crossedLeft rng hL]
    exact ⟨hp1', hp2', Or.inl rfl, hdy', ⟨1000, by norm_num [canvasHeight]⟩,
      by norm_num [canvasHeight], by norm_num [canvasHeight],
      by intro hc; norm_num [canvasHeight] at hc,
      by intro hc; norm_num [canvasHeight] at hc⟩
  by_cases hR : crossedRight l
  · rw [update_of_crossedRight rng hR]
    exact ⟨hp1', hp2', Or.inr rfl, hdy', ⟨1000, by norm_num [canvasHeight]⟩,
      by norm_num [canvasHeight], by norm_num [canvasHeight],
      by intro hc; norm_num [canvasHeight] at hc,
      by intro hc; norm_num [canvasHeight] at hc⟩
  rw [update_not_crossed rng hL hR]
  rcases hdy with hd | hd
  · -- the ball is moving down the screen at speed 0.3
    have h592 : l.ballY ≤ 592 := by
      by_contra hgt
      push_neg at hgt
      have := htop hgt
      rw [hd] at this
      norm_num at this
    have hn1973 : (n : ℤ) ≤ 1973 := by
      have h1 : 3 * (n : ℚ) ≤ 5920 := by
        rw [hy] at h592
        linarith
      have h2 : 3 * n ≤ (5920 : ℤ) := by exact_mod_cast h1
      omega
    have hsharp : l.ballY ≤ 5919/10 := by
      rw [hy]
      have : (n : ℚ) ≤ 1973 := by exact_mod_cast hn1973
      linarith
    refine ⟨hp1', hp2', hdx', hdy', ⟨n + 1, ?_⟩, ?_, ?_, ?_, ?_⟩
    · rw [hy, hd]
      push_cast
      ring
    · rw [hd]
      show 39/5 ≤ l.ballY + 3/10
      linarith
    · rw [hd]
      show l.ballY + 3/10 ≤ 2961/5
      linarith
    · intro hgt
      rw [hd] at hgt
      have hwt : wallTouch l := by
        rw [wallTouch_iff, hd]
        exact Or.inl (by linarith)
      show newBallDy l = -(3/10)
      unfold newBallDy
      rw [if_pos hwt, hd]
    · intro hlt
      rw [hd] at hlt
      exact absurd hlt (by push_neg; linarith)
  · -- the ball is moving up the screen at speed 0.3
    have h8 : 8 ≤ l.ballY := by
      by_contra hlt
      push_neg at hlt
      have := hbot hlt
      rw [hd] at this
      norm_num at this
    have hn27 : (27 : ℤ) ≤ n := by
      have h1 : (80 : ℚ) ≤ 3 * (n : ℚ) := by
        rw [hy] at h8
        linarith
      have h2 : (80 : ℤ) ≤ 3 * n := by exact_mod_cast h1
      omega
    have hsharp : 81/10 ≤ l.ballY := by
      rw [hy]
      have : (27 : ℚ) ≤ (n : ℚ) := by exact_mod_cast hn27
      linarith
    refine ⟨hp1', hp2', hdx', hdy', ⟨n - 1, ?_⟩, ?_, ?_, ?_, ?_⟩
    · rw [hy, hd]
      push_cast
      ring
    · rw [hd]
      show 39/5 ≤ l.ballY + -(3/10)
      linarith
    · rw [hd]
      show l.ballY + -(3/10) ≤ 2961/5
      linarith
    · intro hgt
      rw [hd] at hgt
      exact absurd hgt (by push_neg; linarith)
    · intro hlt
      rw [hd] at hlt
      have hwt : wallTouch l := by
        rw [wallTouch_iff, hd]
        exact Or.inr (by linarith)
      show newBallDy l = 3/10
      unfold newBallDy
      rw [if_pos hwt, hd]
      norm_num

/-- Session-level invariant: the loop is live exactly while the component is
started and not paused, and any live loop state satisfies the loop
invariant. -/
def SessionInv (s : Session) : Prop :=
  (s.loop.isSome = (s.gameStarted && !s.gamePaused)) ∧
  ∀ l, s.loop = some l → LoopInv l

theorem runLoopEffect_sessionInv (t : Session) : SessionInv (runLoopEffect t) := by
  unfold runLoopEffect
  split_ifs with h
  · refine ⟨by simp [h.1, h.2], ?_⟩
    intro l hl
    have : initLoop = l := by
      simpa using hl
    rw [← this]
    exact initLoop_loopInv
  · refine ⟨?_, ?_⟩
    · cases hg : t.gameStarted <;> cases hp : t.gamePaused <;> simp_all
    · intro l hl
      simp at hl

theorem refresh_sessionInv {old t : Session} (hT : SessionInv t) :
    SessionInv (refresh old t) := by
  unfold refresh
  split_ifs
  · exact hT
  · exact runLoopEffect_sessionInv t

theorem sessionInv_of_fields {s t : Session} (h : SessionInv s)
    (hl : t.loop = s.loop) (hg : t.gameStarted = s.gameStarted)
    (hp : t.gamePaused = s.gamePaused) : SessionInv t := by
  unfold SessionInv at *
  rw [hl, hg, hp]
  exact h

theorem checkWinner_fixed (s : Session) :
    (checkWinner s).score1 = s.score1 ∧ (checkWinner s).score2 = s.score2 ∧
    (checkWinner s).loop = s.loop ∧ (checkWinner s).gamePaused = s.gamePaused := by
  unfold checkWinner
  split_ifs <;> exact ⟨rfl, rfl, rfl, rfl⟩

theorem step_sessionInv (e : Event) {s : Session} (hs : SessionInv s) :
    SessionInv (step e s) := by
  cases e with
  | frame rng =>
    cases hloop : s.loop with
    | none =>
      rw [step_frame_none rng hloop]
      exact hs
    | some l =>
      have hInv : LoopInv l := hs.2 l hloop
      have hout : LoopInv (update rng l).state := update_loopInv rng hInv
      have hplay : (s.gameStarted && !s.gamePaused) = true := by
        rw [← hs.1, hloop]
        rfl
      rw [step_frame_some rng hloop]
      cases hsc : (update rng l).scorer with
      | none =>
        apply refresh_sessionInv
        refine ⟨hplay.symm, ?_⟩
        intro l' hl'
        have he : (update rng l).state = l' := by simpa using hl'
        rw [← he]
        exact hout
      | some side =>
        cases side with
        | player1 =>
          have hne : loopDeps s ≠
              loopDeps (checkWinner { s with score1 := s.score1 + 1,
                                             loop := some (update rng l).state }) := by
            intro heq
            unfold loopDeps at heq
            rw [(checkWinner_fixed _).1] at heq
            simp at heq
          rw [refresh_ne hne]
          exact runLoopEffect_sessionInv _
        | player2 =>
          have hne : loopDeps s ≠
              loopDeps (checkWinner { s with score2 := s.score2 + 1,
                                             loop := some (update rng l).state }) := by
            intro heq
            unfold loopDeps at heq
            rw [(checkWinner_fixed _).2.1] at heq
            simp at heq
          rw [refresh_ne hne]
          exact runLoopEffect_sessionInv _
  | keyDown k =>
    cases hloop : s.loop with
    | none =>
      rw [step_keyDown_none k hloop]
      exact hs
    | some l =>
      rw [step_keyDown_some k hloop]
      refine ⟨?_, ?_⟩
      · have h1 := hs.1
        rw [hloop] at h1
        exact h1
      · intro l' hl'
        have he : ({ l with keys := setKey k true l.keys } : LoopState) = l' := by simpa using hl'
        rw [← he]
        exact hs.2 l hloop
  | keyUp k =>
    cases hloop : s.loop with
    | none =>
      rw [step_keyUp_none k hloop]
      exact hs
    | some l =>
      rw [step_keyUp_some k hloop]
      refine ⟨?_, ?_⟩
      · have h1 := hs.1
        rw [hloop] at h1
        exact h1
      · intro l' hl'
        have he : ({ l with keys := setKey k false l.keys } : LoopState) = l' := by simpa using hl'
        rw [← he]
        exact hs.2 l hloop
  | escape =>
    cases hloop : s.loop with
    | none =>
      rw [step_escape_none hloop]
      exact hs
    | some l =>
      rw [step_escape_some hloop]
      have hplay : (s.gameStarted && !s.gamePaused) = true := by
        rw [← hs.1, hloop]
        rfl
      have hp : s.gamePaused = false := by
        cases hg : s.gameStarted <;> cases hq : s.gamePaused <;> simp_all
      have hne : loopDeps s ≠ loopDeps { s with gamePaused := true, showPauseMenu := true } := by
        unfold loopDeps
        simp [hp]
      rw [refresh_ne hne]
      exact runLoopEffect_sessionInv _
  | pauseButton =>
    rw [step_pauseButton]
    split_ifs
    · exact sessionInv_of_fields hs rfl rfl rfl
    · exact hs
  | resume =>
    rw [step_resume]
    unfold refresh
    split_ifs with heq
    · unfold loopDeps at heq
      simp only [Prod.mk.injEq] at heq
      exact sessionInv_of_fields hs rfl rfl heq.2.1.symm
    · exact runLoopEffect_sessionInv _
  | openSettings =>
    rw [step_openSettings]
    split_ifs
    · exact sessionInv_of_fields hs rfl rfl rfl
    · exact hs
  | closeSettings =>
    rw [step_closeSettings]
    exact sessionInv_of_fields hs rfl rfl rfl
  | quit =>
    rw [step_quit]
    unfold refresh
    split_ifs with heq
    · unfold loopDeps at heq
      simp only [Prod.mk.injEq] at heq
      exact sessionInv_of_fields hs rfl heq.1.symm heq.2.1.symm
    · exact runLoopEffect_sessionInv _
  | start =>
    rw [step_start]
    split_ifs with h1
    · exact sessionInv_of_fields hs rfl rfl rfl
    · unfold refresh
      split_ifs with heq
      · unfold loopDeps at heq
        simp only [Prod.mk.injEq] at heq
        exact sessionInv_of_fields hs rfl heq.1.symm heq.2.1.symm
      · exact runLoopEffect_sessionInv _

theorem reach_sessionInv {s : Session} (h : Reach s) : SessionInv s := by
  induction h with
  | init => exact ⟨rfl, fun l hl => by simp [initialSession] at hl⟩
  | next e hr ih => exact step_sessionInv e ih

theorem reach_loopInv {s : Session} (h : Reach s) {l : LoopState}
    (hl : s.loop = some l) : LoopInv l :=
  (reach_sessionInv h).2 l hl

theorem reach_paused_loop_none {s : Session} (h : Reach s)
    (hp : s.gamePaused = true) : s.loop = none := by
  have h1 := (reach_sessionInv h).1
  rw [hp] at h1
  simp at h1
  cases ho : s.loop with
  | none => rfl
  | some l =>
    rw [ho] at h1
    simp at h1

/-! ### Concrete states used by counterexamples and witnesses -/

/-- All key flags released. -/
def noKeys : Keys := { w := false, s := false, arrowUp := false, arrowDown := false }

/-- A loop state one step away from a left scoring crossing: the ball is at
x = -7.9 moving left, so after the move its trailing edge sits at -0.2. -/
def exLeft : LoopState :=
  { ballX := -(79/10), ballY := 100, ballDx := -(3/10), ballDy := 3/10,
    paddle1Y := 250, paddle2Y := 250, particles := [], keys := noKeys }

/-- A loop state one step away from a right scoring crossing: the ball is at
x = 808 moving right, so after the move its trailing edge sits at 800.3. -/
def exRight : LoopState :=
  { ballX := 808, ballY := 100, ballDx := 3/10, ballDy := 3/10,
    paddle1Y := 250, paddle2Y := 250, particles := [], keys := noKeys }

/-- A loop state whose moved ball has its leading edge past the left
boundary (x = -0.5, leading edge -8.5) while its trailing edge is still
inside (7.5). -/
def exNoDetect : LoopState :=
  { ballX := -(1/5), ballY := 100, ballDx := -(3/10), ballDy := 3/10,
    paddle1Y := 250, paddle2Y := 250, particles := [], keys := noKeys }

theorem exLeft_crossedLeft : crossedLeft exLeft := by
  norm_num [crossedLeft, exLeft, ballRadius]

theorem exRight_crossedRight : crossedRight exRight := by
  norm_num [crossedRight, exRight, ballRadius, canvasWidth]

/-! ### C2 -/

/-- C2, counterexample to the claim as stated: at the concrete state
exNoDetect the ball moves left and its leading edge (x minus radius) has
passed beyond the left boundary after this frame, yet the frame detects no
scoring crossing and simply carries the ball on to x = -0.5. -/
theorem c2_counterexample :
    exNoDetect.ballDx < 0 ∧
    exNoDetect.ballX + exNoDetect.ballDx - ballRadius < 0 ∧
    (update rng0 exNoDetect).scorer = none ∧
    (update rng0 exNoDetect).state.ballX = -(1/2) := by
  have hL : ¬crossedLeft exNoDetect := by
    norm_num [crossedLeft, exNoDetect, ballRadius]
  have hR : ¬crossedRight exNoDetect := by
    norm_num [crossedRight, exNoDetect, ballRadius, canvasWidth]
  refine ⟨by norm_num [exNoDetect], by norm_num [exNoDetect, ballRadius], ?_, ?_⟩
  · rw [update_scorer, if_neg hL, if_neg hR]
  · rw [update_not_crossed rng0 hL hR]
    norm_num [exNoDetect]

/-- C2, amended: a scoring crossing is detected exactly when the moved ball
is entirely beyond a side boundary, that is when its trailing edge (x plus
radius at the left boundary, x minus radius at the right) has passed the
boundary, irrespective of the direction of travel; at that moment the
horizontal velocity is not flipped: the event is handed to Scoring, which
assigns the fixed serve velocity. -/
theorem c2_theorem (rng : ℕ → ℚ × ℚ) (l : LoopState) :
    ((update rng l).scorer.isSome = true ↔
      (l.ballX + l.ballDx + ballRadius < 0 ∨
       l.ballX + l.ballDx - ballRadius > canvasWidth)) ∧
    (l.ballX + l.ballDx + ballRadius < 0 →
      (update rng l).scorer = some Side.player2 ∧
      (update rng l).state.ballDx = ballSpeed) ∧
    (l.ballX + l.ballDx - ballRadius > canvasWidth →
      (update rng l).scorer = some Side.player1 ∧
      (update rng l).state.ballDx = -ballSpeed) := by
  refine ⟨?_, ?_, ?_⟩
  · rw [update_scorer]
    split_ifs with hL hR
    · simp only [Option.isSome_some, true_iff]
      exact Or.inl hL
    · simp only [Option.isSome_some, true_iff]
      exact Or.inr hR
    · simp only [Option.isSome_none, Bool.false_eq_true, false_iff]
      push_neg
      exact ⟨le_of_not_lt hL, le_of_not_lt hR⟩
  · intro h
    rw [update_of_crossedLeft rng h]
    exact ⟨rfl, rfl⟩
  · intro h
    rw [update_of_crossedRight rng h]
    exact ⟨rfl, rfl⟩

/-- C2, witness: the amended theorem applied at the concrete left-crossing
state exLeft. -/
theorem c2_witness :
    (update rng0 exLeft).scorer = some Side.player2 ∧
    (update rng0 exLeft).state.ballDx = ballSpeed :=
  (c2_theorem rng0 exLeft).2.1 exLeft_crossedLeft

/-! ### C3 -/

/-- C3, counterexample to the claim as stated: at the concrete state exLeft
the ball crosses x < 0, player two scores, and the ball resets with a
horizontal velocity of +0.3, which points away from the left side (the side
that was scored against), not toward it. -/
theorem c3_counterexample :
    (update rng0 exLeft).scorer = some Side.player2 ∧
    (update rng0 exLeft).state.ballDx = 3/10 ∧
    ¬((update rng0 exLeft).state.ballDx < 0) := by
  rw [update_of_crossedLeft rng0 exLeft_crossedLeft]
  refine ⟨rfl, ?_, ?_⟩
  · norm_num [ballSpeed]
  · norm_num [ballSpeed]

/-- C3, amended: on every scoring crossing the ball is reset to the centre
(400,300) with the fixed low horizontal speed 0.3 whose sign points toward
the side of the player who scored (away from the side scored against): a
left crossing gives score player2 plus one and serve velocity +0.3, a right
crossing gives score player1 plus one and serve velocity -0.3; the vertical
component is left unchanged by the reset (0.3 in the scenario) unless the
same frame also touched a wall. -/
theorem c3_theorem (rng : ℕ → ℚ × ℚ) (l : LoopState) :
    (crossedLeft l →
      (update rng l).scorer = some Side.player2 ∧
      (update rng l).state.ballX = 400 ∧ (update rng l).state.ballY = 300 ∧
      (update rng l).state.ballDx = 3/10 ∧ 0 < (update rng l).state.ballDx ∧
      (¬wallTouch l → (update rng l).state.ballDy = l.ballDy)) ∧
    (crossedRight l →
      (update rng l).scorer = some Side.player1 ∧
      (update rng l).state.ballX = 400 ∧ (update rng l).state.ballY = 300 ∧
      (update rng l).state.ballDx = -(3/10) ∧ (update rng l).state.ballDx < 0 ∧
      (¬wallTouch l → (update rng l).state.ballDy = l.ballDy)) := by
  constructor
  · intro h
    rw [update_of_crossedLeft rng h]
    refine ⟨rfl, by norm_num [canvasWidth], by norm_num [canvasHeight],
      by norm_num [ballSpeed], by norm_num [ballSpeed], ?_⟩
    intro hnw
    show newBallDy l = l.ballDy
    unfold newBallDy
    rw [if_neg hnw]
  · intro h
    rw [update_of_crossedRight rng h]
    refine ⟨rfl, by norm_num [canvasWidth], by norm_num [canvasHeight],
      by norm_num [ballSpeed], by norm_num [ballSpeed], ?_⟩
    intro hnw
    show newBallDy l = l.ballDy
    unfold newBallDy
    rw [if_neg hnw]

/-- C3, witness: the amended theorem applied at the concrete left-crossing
state exLeft, whose vertical velocity 0.3 is preserved through the reset. -/
theorem c3_witness :
    (update rng0 exLeft).scorer = some Side.player2 ∧
    (update rng0 exLeft).state.ballX = 400 ∧
    (update rng0 exLeft).state.ballY = 300 ∧
    (update rng0 exLeft).state.ballDx = 3/10 ∧
    (update rng0 exLeft).state.ballDy = 3/10 := by
  have h := (c3_theorem rng0 exLeft).1 exLeft_crossedLeft
  have hnw : ¬wallTouch exLeft := by
    rw [wallTouch_iff]
    push_neg
    norm_num [exLeft]
  refine ⟨h.1, h.2.1, h.2.2.1, h.2.2.2.1, ?_⟩
  rw [h.2.2.2.2.2 hnw]
  norm_num [exLeft]

/-! ### C9 -/

/-- Two concrete particles: one fresh, one whose life 1/200 reaches 0 on
the next advance. -/
def exParticles : List Particle :=
  [{ x := 0, y := 0, dx := 1, dy := 1, life := 1 },
   { x := 5, y := 5, dx := 0, dy := 0, life := 1/200 }]

/-- C9: particles spawned by createParticles start with life exactly 1 at
the burst position; each advance moves a particle by its velocity and
strictly decreases its life by the fixed decay 0.005; a particle survives an
advance exactly when its decreased life is still positive, so no particle
with life at or below 0 is ever kept, and when all incoming lives are at
most 1 every survivor has life in (0, 1]. -/
theorem c9_theorem :
    (∀ (rng : ℕ → ℚ × ℚ) (x y : ℚ) (count : ℕ) (ps : List Particle),
        ∀ p ∈ (createParticles rng x y count ps).drop ps.length,
          p.life = 1 ∧ p.x = x ∧ p.y = y) ∧
    (∀ p : Particle, (advanceParticle p).life = p.life - particleDecay ∧
        (advanceParticle p).life < p.life ∧
        (advanceParticle p).x = p.x + p.dx ∧ (advanceParticle p).y = p.y + p.dy) ∧
    (∀ (ps : List Particle) (p : Particle),
        p ∈ updateParticles ps ↔ (∃ q ∈ ps, advanceParticle q = p) ∧ 0 < p.life) ∧
    (∀ ps : List Particle, (∀ q ∈ ps, q.life ≤ 1) →
        ∀ p ∈ updateParticles ps, 0 < p.life ∧ p.life ≤ 1) := by
  refine ⟨?_, ?_, ?_, ?_⟩
  · intro rng x y count ps p hp
    rw [createParticles, List.drop_left] at hp
    simp only [List.mem_map, List.mem_range] at hp
    obtain ⟨i, hi, rfl⟩ := hp
    exact ⟨rfl, rfl, rfl⟩
  · intro p
    refine ⟨rfl, ?_, rfl, rfl⟩
    show p.life - particleDecay < p.life
    unfold particleDecay
    linarith
  · intro ps p
    unfold updateParticles
    simp only [List.mem_filter, List.mem_map, decide_eq_true_eq]
  · intro ps hps p hp
    unfold updateParticles at hp
    simp only [List.mem_filter, List.mem_map, decide_eq_true_eq] at hp
    obtain ⟨⟨q, hq, rfl⟩, hpos⟩ := hp
    refine ⟨hpos, ?_⟩
    have hq1 := hps q hq
    show q.life - particleDecay ≤ 1
    unfold particleDecay
    linarith

/-- C9, witness: advancing the concrete list exParticles removes the
particle whose life reaches 0 and keeps the fresh one with life 0.995, and
the survivor bound of the theorem applies to it. -/
theorem c9_witness :
    updateParticles exParticles = [{ x := 1, y := 1, dx := 1, dy := 1, life := 199/200 }] ∧
    (∀ p ∈ updateParticles exParticles, 0 < p.life ∧ p.life ≤ 1) := by
  constructor
  · simp only [exParticles, updateParticles, advanceParticle, particleDecay,
      List.map_cons, List.map_nil, List.filter]
    norm_num
  · exact c9_theorem.2.2.2 exParticles (by
      intro q hq
      simp only [exParticles, List.mem_cons, List.mem_singleton] at hq
      rcases hq with rfl | rfl | h
      · norm_num
      · norm_num
      · simp at h)

/-! ### C10 -/

/-- C10: in every live loop state of a reachable session the ball velocity
components have magnitude exactly 0.3, and one update step either keeps a
component, flips its sign, or resets the horizontal one to the fixed serve
speed, so the magnitudes after the step are again exactly 0.3 - the speed
never changes. -/
theorem c10_theorem {s : Session} (hr : Reach s) {l : LoopState}
    (hl : s.loop = some l) (rng : ℕ → ℚ × ℚ) :
    |l.ballDx| = 3/10 ∧ |l.ballDy| = 3/10 ∧
    ((update rng l).state.ballDx = l.ballDx ∨ (update rng l).state.ballDx = -l.ballDx ∨
     (update rng l).state.ballDx = 3/10 ∨ (update rng l).state.ballDx = -(3/10)) ∧
    ((update rng l).state.ballDy = l.ballDy ∨ (update rng l).state.ballDy = -l.ballDy) ∧
    |(update rng l).state.ballDx| = 3/10 ∧ |(update rng l).state.ballDy| = 3/10 := by
  have hInv := reach_loopInv hr hl
  have hOut := update_loopInv rng hInv
  have habs : ∀ q : ℚ, q = 3/10 ∨ q = -(3/10) → |q| = 3/10 := by
    rintro q (rfl | rfl)
    · rw [abs_of_pos (by norm_num : (0:ℚ) < 3/10)]
    · rw [abs_neg, abs_of_pos (by norm_num : (0:ℚ) < 3/10)]
  obtain ⟨-, -, hdx, hdy, -⟩ := hInv
  obtain ⟨-, -, hdx', hdy', -⟩ := hOut
  refine ⟨habs _ hdx, habs _ hdy, ?_, ?_, habs _ hdx', habs _ hdy'⟩
  · rw [update_state_dx]
    split_ifs
    · right; right; left
      norm_num [ballSpeed]
    · right; right; right
      norm_num [ballSpeed]
    · unfold newBallDx
      split_ifs
      · right; left; rfl
      · left; rfl
  · rw [update_state_dy]
    unfold newBallDy
    split_ifs
    · right; rfl
    · left; rfl

/-- C10, witness: the theorem applied to the reachable session right after
the start intent, whose live loop state is initLoop. -/
theorem c10_witness :
    |initLoop.ballDx| = 3/10 ∧ |initLoop.ballDy| = 3/10 ∧
    ((update rng0 initLoop).state.ballDx = initLoop.ballDx ∨
     (update rng0 initLoop).state.ballDx = -initLoop.ballDx ∨
     (update rng0 initLoop).state.ballDx = 3/10 ∨
     (update rng0 initLoop).state.ballDx = -(3/10)) ∧
    ((update rng0 initLoop).state.ballDy = initLoop.ballDy ∨
     (update rng0 initLoop).state.ballDy = -initLoop.ballDy) ∧
    |(update rng0 initLoop).state.ballDx| = 3/10 ∧
    |(update rng0 initLoop).state.ballDy| = 3/10 :=
  c10_theorem (Reach.next Event.start (Reach.next Event.start Reach.init)) rfl rng0

/-! ### C6 -/

/-- C6: in every live loop state of a reachable session both paddle
positions lie within 0 and surfaceHeight minus paddleHeight, that is within
0 and 500; no out-of-range position is ever produced. -/
theorem c6_theorem {s : Session} (hr : Reach s) {l : LoopState}
    (hl : s.loop = some l) :
    0 ≤ l.paddle1Y ∧ l.paddle1Y ≤ canvasHeight - paddleHeight ∧
    0 ≤ l.paddle2Y ∧ l.paddle2Y ≤ canvasHeight - paddleHeight := by
  obtain ⟨⟨a, ha, hale⟩, ⟨b, hb, hble⟩, -⟩ := reach_loopInv hr hl
  have hca : (a : ℚ) ≤ 1250 := by exact_mod_cast hale
  have hcb : (b : ℚ) ≤ 1250 := by exact_mod_cast hble
  have hna : (0:ℚ) ≤ (a:ℚ) := Nat.cast_nonneg a
  have hnb : (0:ℚ) ≤ (b:ℚ) := Nat.cast_nonneg b
  rw [ha, hb]
  unfold canvasHeight paddleHeight
  refine ⟨by positivity, by linarith, by positivity, by linarith⟩

/-- C6, witness: the theorem applied to the reachable session right after
the start intent, whose paddles sit at the vertical centre 250. -/
theorem c6_witness :
    0 ≤ initLoop.paddle1Y ∧ initLoop.paddle1Y ≤ canvasHeight - paddleHeight ∧
    0 ≤ initLoop.paddle2Y ∧ initLoop.paddle2Y ≤ canvasHeight - paddleHeight :=
  c6_theorem (Reach.next Event.start (Reach.next Event.start Reach.init)) rfl

/-! ### Frame step lemmas at the session level -/

theorem update_initLoop_scorer (rng : ℕ → ℚ × ℚ) :
    (update rng initLoop).scorer = none := by
  have hL : ¬crossedLeft initLoop := by
    norm_num [crossedLeft, initLoop, ballRadius, ballSpeed, canvasWidth]
  have hR : ¬crossedRight initLoop := by
    norm_num [crossedRight, initLoop, ballRadius, ballSpeed, canvasWidth]
  rw [update_scorer, if_neg hL, if_neg hR]

theorem runLoopEffect_fields (t : Session) :
    (runLoopEffect t).score1 = t.score1 ∧ (runLoopEffect t).score2 = t.score2 ∧
    (runLoopEffect t).winner = t.winner ∧
    (runLoopEffect t).gameStarted = t.gameStarted ∧
    (runLoopEffect t).gamePaused = t.gamePaused := by
  unfold runLoopEffect
  split_ifs <;> exact ⟨rfl, rfl, rfl, rfl, rfl⟩

theorem runLoopEffect_loop (t : Session) :
    (runLoopEffect t).loop = some initLoop ∨ (runLoopEffect t).loop = none := by
  unfold runLoopEffect
  split_ifs
  · exact Or.inl rfl
  · exact Or.inr rfl

theorem checkWinner_p1 (t : Session) (h : t.score1 ≥ winScore) :
    checkWinner t = { t with winner := some Side.player1, gameStarted := false } := by
  unfold checkWinner
  rw [if_pos h]

theorem checkWinner_p2 (t : Session) (h1 : ¬(t.score1 ≥ winScore)) (h2 : t.score2 ≥ winScore) :
    checkWinner t = { t with winner := some Side.player2, gameStarted := false } := by
  unfold checkWinner
  rw [if_neg h1, if_pos h2]

theorem checkWinner_none (t : Session) (h1 : ¬(t.score1 ≥ winScore))
    (h2 : ¬(t.score2 ≥ winScore)) : checkWinner t = t := by
  unfold checkWinner
  rw [if_neg h1, if_neg h2]

theorem step_frame_no_score {s : Session} {l : LoopState} (rng : ℕ → ℚ × ℚ)
    (hl : s.loop = some l) (hsc : (update rng l).scorer = none) :
    step (Event.frame rng) s = { s with loop := some (update rng l).state } := by
  rw [step_frame_some rng hl, hsc]
  exact refresh_eq rfl

theorem step_frame_scored_p1 {s : Session} {l : LoopState} (rng : ℕ → ℚ × ℚ)
    (hl : s.loop = some l) (hsc : (update rng l).scorer = some Side.player1) :
    step (Event.frame rng) s =
      runLoopEffect (checkWinner { s with score1 := s.score1 + 1,
                                          loop := some (update rng l).state }) := by
  rw [step_frame_some rng hl, hsc]
  exact refresh_ne (by
    intro heq
    unfold loopDeps at heq
    rw [(checkWinner_fixed _).1] at heq
    simp at heq)

theorem step_frame_scored_p2 {s : Session} {l : LoopState} (rng : ℕ → ℚ × ℚ)
    (hl : s.loop = some l) (hsc : (update rng l).scorer = some Side.player2) :
    step (Event.frame rng) s =
      runLoopEffect (checkWinner { s with score2 := s.score2 + 1,
                                          loop := some (update rng l).state }) := by
  rw [step_frame_some rng hl, hsc]
  exact refresh_ne (by
    intro heq
    unfold loopDeps at heq
    rw [(checkWinner_fixed _).2.1] at heq
    simp at heq)

theorem step_frame_keep_scores {s2 : Session} (rng2 : ℕ → ℚ × ℚ)
    (h : s2.loop = some initLoop ∨ s2.loop = none) :
    (step (Event.frame rng2) s2).score1 = s2.score1 ∧
    (step (Event.frame rng2) s2).score2 = s2.score2 := by
  rcases h with h | h
  · rw [step_frame_no_score rng2 h (update_initLoop_scorer rng2)]
    exact ⟨rfl, rfl⟩
  · rw [step_frame_none rng2 h]
    exact ⟨rfl, rfl⟩

/-! ### C4 -/

/-- A session in mid-match whose next frame crosses the left boundary. -/
def sMid : Session :=
  { gameStarted := true, gamePaused := false, showControls := false, showSettings := false,
    showPauseMenu := false, score1 := 3, score2 := 5, winner := none, loop := some exLeft }

/-- C4: a frame whose ball crosses a side boundary increments exactly one
counter by exactly one, every live loop state after that frame has the ball
recentred at x = 400 where neither crossing condition holds, and the
following frame leaves both counters unchanged - the crossing is never
reported twice. -/
theorem c4_theorem {s : Session} {l : LoopState} (rng rng2 : ℕ → ℚ × ℚ)
    (hl : s.loop = some l) (hc : crossedLeft l ∨ crossedRight l) :
    (((step (Event.frame rng) s).score2 = s.score2 + 1 ∧
      (step (Event.frame rng) s).score1 = s.score1) ∨
     ((step (Event.frame rng) s).score1 = s.score1 + 1 ∧
      (step (Event.frame rng) s).score2 = s.score2)) ∧
    (∀ l2, (step (Event.frame rng) s).loop = some l2 →
      l2.ballX = 400 ∧ ¬crossedLeft l2 ∧ ¬crossedRight l2) ∧
    (step (Event.frame rng2) (step (Event.frame rng) s)).score1 =
      (step (Event.frame rng) s).score1 ∧
    (step (Event.frame rng2) (step (Event.frame rng) s)).score2 =
      (step (Event.frame rng) s).score2 := by
  have hInitX : initLoop.ballX = 400 := by norm_num [initLoop, canvasWidth]
  have hInitL : ¬crossedLeft initLoop := by
    norm_num [crossedLeft, initLoop, ballRadius, ballSpeed, canvasWidth]
  have hInitR : ¬crossedRight initLoop := by
    norm_num [crossedRight, initLoop, ballRadius, ballSpeed, canvasWidth]
  rcases hc with hcl | hcr
  · have hsc : (update rng l).scorer = some Side.player2 := by
      rw [update_scorer, if_pos hcl]
    rw [step_frame_scored_p2 rng hl hsc]
    refine ⟨Or.inl ⟨?_, ?_⟩, ?_, ?_⟩
    · rw [(runLoopEffect_fields _).2.1, (checkWinner_fixed _).2.1]
    · rw [(runLoopEffect_fields _).1, (checkWinner_fixed _).1]
    · intro l2 hl2
      rcases runLoopEffect_loop (checkWinner { s with score2 := s.score2 + 1, loop := some (update rng l).state }) with hro | hro
      · rw [hro] at hl2
        rcases Option.some.inj hl2 with rfl
        exact ⟨hInitX, hInitL, hInitR⟩
      · rw [hro] at hl2
        simp at hl2
    · exact step_frame_keep_scores rng2 (runLoopEffect_loop _)
  · have hsc : (update rng l).scorer = some Side.player1 := by
      rw [update_scorer, if_neg (not_crossedLeft_of_crossedRight hcr), if_pos hcr]
    rw [step_frame_scored_p1 rng hl hsc]
    refine ⟨Or.inr ⟨?_, ?_⟩, ?_, ?_⟩
    · rw [(runLoopEffect_fields _).1, (checkWinner_fixed _).1]
    · rw [(runLoopEffect_fields _).2.1, (checkWinner_fixed _).2.1]
    · intro l2 hl2
      rcases runLoopEffect_loop (checkWinner { s with score1 := s.score1 + 1, loop := some (update rng l).state }) with hro | hro
      · rw [hro] at hl2
        rcases Option.some.inj hl2 with rfl
        exact ⟨hInitX, hInitL, hInitR⟩
      · rw [hro] at hl2
        simp at hl2
    · exact step_frame_keep_scores rng2 (runLoopEffect_loop _)

/-- C4, witness: the theorem applied to the concrete mid-match session sMid
with scores 3 and 5 whose frame crosses the left boundary. -/
theorem c4_witness :
    (((step (Event.frame rng0) sMid).score2 = sMid.score2 + 1 ∧
      (step (Event.frame rng0) sMid).score1 = sMid.score1) ∨
     ((step (Event.frame rng0) sMid).score1 = sMid.score1 + 1 ∧
      (step (Event.frame rng0) sMid).score2 = sMid.score2)) ∧
    (∀ l2, (step (Event.frame rng0) sMid).loop = some l2 →
      l2.ballX = 400 ∧ ¬crossedLeft l2 ∧ ¬crossedRight l2) ∧
    (step (Event.frame rng0) (step (Event.frame rng0) sMid)).score1 =
      (step (Event.frame rng0) sMid).score1 ∧
    (step (Event.frame rng0) (step (Event.frame rng0) sMid)).score2 =
      (step (Event.frame rng0) sMid).score2 :=
  c4_theorem rng0 rng0 rfl (Or.inl exLeft_crossedLeft)

/-! ### C5 -/

/-- C5: when a frame of a live loop reports a scorer and neither counter
thereby reaches the threshold, the loop effect re-runs (its dependency array
contains both score components) and every loop-local variable is re-created:
the new live loop state is exactly initLoop, with both paddles at the
vertical centre, no particles, all key flags cleared, and the ball re-served
from the centre. -/
theorem c5_theorem {s : Session} {l : LoopState} (rng : ℕ → ℚ × ℚ)
    (hl : s.loop = some l) (hg : s.gameStarted = true) (hp : s.gamePaused = false)
    (hsc : (update rng l).scorer ≠ none)
    (h1 : s.score1 + 1 < winScore) (h2 : s.score2 + 1 < winScore) :
    (step (Event.frame rng) s).loop = some initLoop ∧
    initLoop.paddle1Y = canvasHeight / 2 - paddleHeight / 2 ∧
    initLoop.paddle2Y = canvasHeight / 2 - paddleHeight / 2 ∧
    initLoop.particles = [] ∧
    initLoop.keys = noKeys ∧
    initLoop.ballX = canvasWidth / 2 ∧ initLoop.ballY = canvasHeight / 2 ∧
    initLoop.ballDx = 3/10 ∧ initLoop.ballDy = 3/10 := by
  have hLoop : (step (Event.frame rng) s).loop = some initLoop := by
    cases hscc : (update rng l).scorer with
    | none => exact absurd hscc hsc
    | some side =>
      cases side with
      | player1 =>
        rw [step_frame_scored_p1 rng hl hscc]
        rw [checkWinner_none { s with score1 := s.score1 + 1, loop := some (update rng l).state }
          (by show ¬(s.score1 + 1 ≥ winScore); omega) (by show ¬(s.score2 ≥ winScore); omega)]
        exact runLoopEffect_loop_some _ hg hp
      | player2 =>
        rw [step_frame_scored_p2 rng hl hscc]
        rw [checkWinner_none { s with score2 := s.score2 + 1, loop := some (update rng l).state }
          (by show ¬(s.score1 ≥ winScore); omega) (by show ¬(s.score2 + 1 ≥ winScore); omega)]
        exact runLoopEffect_loop_some _ hg hp
  exact ⟨hLoop, rfl, rfl, rfl, rfl, rfl, rfl, rfl, rfl⟩

/-- C5, witness: the theorem applied to the concrete mid-match session sMid,
whose frame scores for player two and re-creates the loop-local state. -/
theorem c5_witness :
    (step (Event.frame rng0) sMid).loop = some initLoop ∧
    initLoop.paddle1Y = canvasHeight / 2 - paddleHeight / 2 ∧
    initLoop.paddle2Y = canvasHeight / 2 - paddleHeight / 2 ∧
    initLoop.particles = [] ∧
    initLoop.keys = noKeys ∧
    initLoop.ballX = canvasWidth / 2 ∧ initLoop.ballY = canvasHeight / 2 ∧
    initLoop.ballDx = 3/10 ∧ initLoop.ballDy = 3/10 :=
  c5_theorem rng0 rfl rfl rfl
    (by rw [update_scorer, if_pos exLeft_crossedLeft]; simp)
    (by norm_num [sMid, winScore]) (by norm_num [sMid, winScore])

/-! ### C8 -/

/-- A playing session at score 14 to 0 whose next frame crosses the right
boundary and hands player one the fifteenth point. -/
def sWin : Session :=
  { gameStarted := true, gamePaused := false, showControls := false, showSettings := false,
    showPauseMenu := false, score1 := 14, score2 := 0, winner := none, loop := some exRight }

/-- C8: starting below the threshold, the first counter to reach 15 in a
frame ends the match: the recorded winner matches the counter (player1 gives
the Player 1 winner, player2 gives Player 2), the component leaves the
started state, the loop is torn down, and any subsequent frame leaves the
session completely unchanged. -/
theorem c8_theorem {s : Session} {l : LoopState} (rng rng2 : ℕ → ℚ × ℚ)
    (hl : s.loop = some l) (h1 : s.score1 < winScore) (h2 : s.score2 < winScore) :
    ((step (Event.frame rng) s).score1 ≥ winScore →
      (step (Event.frame rng) s).winner = some Side.player1 ∧
      (step (Event.frame rng) s).gameStarted = false ∧
      (step (Event.frame rng) s).loop = none) ∧
    ((step (Event.frame rng) s).score2 ≥ winScore →
      (step (Event.frame rng) s).winner = some Side.player2 ∧
      (step (Event.frame rng) s).gameStarted = false ∧
      (step (Event.frame rng) s).loop = none) ∧
    ((step (Event.frame rng) s).loop = none →
      step (Event.frame rng2) (step (Event.frame rng) s) = step (Event.frame rng) s) := by
  refine ⟨?_, ?_, fun hnone => step_frame_none rng2 hnone⟩
  · intro hge
    cases hscc : (update rng l).scorer with
    | none =>
      rw [step_frame_no_score rng hl hscc] at hge
      have hcon : s.score1 ≥ winScore := hge
      omega
    | some side =>
      cases side with
      | player2 =>
        rw [step_frame_scored_p2 rng hl hscc] at hge
        rw [(runLoopEffect_fields _).1, (checkWinner_fixed _).1] at hge
        have hcon : s.score1 ≥ winScore := hge
        omega
      | player1 =>
        rw [step_frame_scored_p1 rng hl hscc] at hge ⊢
        rw [(runLoopEffect_fields _).1, (checkWinner_fixed _).1] at hge
        have hge' : s.score1 + 1 ≥ winScore := hge
        rw [checkWinner_p1 { s with score1 := s.score1 + 1, loop := some (update rng l).state } hge']
        exact ⟨(runLoopEffect_fields _).2.2.1, (runLoopEffect_fields _).2.2.2.1,
          runLoopEffect_loop_none _ rfl⟩
  · intro hge
    cases hscc : (update rng l).scorer with
    | none =>
      rw [step_frame_no_score rng hl hscc] at hge
      have hcon : s.score2 ≥ winScore := hge
      omega
    | some side =>
      cases side with
      | player1 =>
        rw [step_frame_scored_p1 rng hl hscc] at hge
        rw [(runLoopEffect_fields _).2.1, (checkWinner_fixed _).2.1] at hge
        have hcon : s.score2 ≥ winScore := hge
        omega
      | player2 =>
        rw [step_frame_scored_p2 rng hl hscc] at hge ⊢
        rw [(runLoopEffect_fields _).2.1, (checkWinner_fixed _).2.1] at hge
        have hge' : s.score2 + 1 ≥ winScore := hge
        rw [checkWinner_p2 { s with score2 := s.score2 + 1, loop := some (update rng l).state }
          (by show ¬(s.score1 ≥ winScore); omega) hge']
        exact ⟨(runLoopEffect_fields _).2.2.1, (runLoopEffect_fields _).2.2.2.1,
          runLoopEffect_loop_none _ rfl⟩

/-- C8, witness: from the concrete session sWin at 14 to 0, the next frame
scores the fifteenth point for player one, records the Player 1 winner,
stops the loop, and a further frame changes nothing. -/
theorem c8_witness :
    (step (Event.frame rng0) sWin).winner = some Side.player1 ∧
    (step (Event.frame rng0) sWin).gameStarted = false ∧
    (step (Event.frame rng0) sWin).loop = none ∧
    step (Event.frame rng0) (step (Event.frame rng0) sWin) =
      step (Event.frame rng0) sWin := by
  have hL : ¬crossedLeft exRight := by
    norm_num [crossedLeft, exRight, ballRadius]
  have hsc : (update rng0 exRight).scorer = some Side.player1 := by
    rw [update_scorer, if_neg hL, if_pos exRight_crossedRight]
  have h := c8_theorem rng0 rng0 (show sWin.loop = some exRight from rfl)
    (by norm_num [sWin, winScore]) (by norm_num [sWin, winScore])
  have hge : (step (Event.frame rng0) sWin).score1 ≥ winScore := by
    rw [step_frame_scored_p1 rng0 rfl hsc]
    rw [(runLoopEffect_fields _).1, (checkWinner_fixed _).1]
    show 14 + 1 ≥ winScore
    norm_num [winScore]
  obtain ⟨hw1, hw2, hw3⟩ := h.1 hge
  exact ⟨hw1, hw2, hw3, h.2.2 hw3⟩

/-! ### C7 -/

theorem scorer_none_not_crossed {l : LoopState} (rng : ℕ → ℚ × ℚ)
    (h : (update rng l).scorer = none) : ¬crossedLeft l ∧ ¬crossedRight l := by
  rw [update_scorer] at h
  constructor
  · intro hc
    rw [if_pos hc] at h
    simp at h
  · intro hc
    by_cases hL : crossedLeft l
    · rw [if_pos hL] at h
      simp at h
    · rw [if_neg hL, if_pos hc] at h
      simp at h

theorem wall_sound_mem {l : LoopState} (rng : ℕ → ℚ × ℚ) (hw : wallTouch l) :
    SoundEvent.wall ∈ (update rng l).sounds := by
  have hmem : SoundEvent.wall ∈ frameSounds l := by
    unfold frameSounds
    rw [if_pos hw]
    simp
  have hs : (update rng l).sounds = frameSounds l ++ [SoundEvent.score] ∨
      (update rng l).sounds = frameSounds l := by
    unfold update
    split_ifs
    · exact Or.inl rfl
    · exact Or.inl rfl
    · exact Or.inr rfl
  rcases hs with h | h <;> rw [h] <;> simp [hmem]

theorem update_bursts_eq (rng : ℕ → ℚ × ℚ) (l : LoopState) :
    (update rng l).bursts = frameBursts l := by
  unfold update
  split_ifs <;> rfl

theorem wall_burst_mem {l : LoopState} (rng : ℕ → ℚ × ℚ) (hw : wallTouch l) :
    (l.ballX + l.ballDx, l.ballY + l.ballDy, (10:ℕ)) ∈ (update rng l).bursts := by
  rw [update_bursts_eq]
  unfold frameBursts
  rw [if_pos hw]
  simp

/-- C7: in any reachable playing session whose frame touches the top or
bottom wall, the vertical velocity is inverted exactly once in that frame
(the new value is exactly the negation of the old), the frame requests the
wall-hit sound and a 10-particle burst at the moved ball position, and the
live loop state after the frame does not touch a wall again, so the flip is
not repeated on the next frame of the same touch. -/
theorem c7_theorem {s : Session} {l : LoopState} (rng : ℕ → ℚ × ℚ)
    (hr : Reach s) (hl : s.loop = some l) (hw : wallTouch l) :
    (update rng l).state.ballDy = -l.ballDy ∧
    SoundEvent.wall ∈ (update rng l).sounds ∧
    (l.ballX + l.ballDx, l.ballY + l.ballDy, (10:ℕ)) ∈ (update rng l).bursts ∧
    ∀ l2, (step (Event.frame rng) s).loop = some l2 → ¬wallTouch l2 := by
  obtain ⟨-, -, -, hdy, -, hlo, hhi, htop, hbot⟩ := reach_loopInv hr hl
  have hnd : newBallDy l = -l.ballDy := by
    unfold newBallDy
    rw [if_pos hw]
  refine ⟨by rw [update_state_dy]; exact hnd, wall_sound_mem rng hw, wall_burst_mem rng hw, ?_⟩
  have hin : 8 ≤ l.ballY ∧ l.ballY ≤ 592 := by
    constructor
    · by_contra hc
      push_neg at hc
      have hd := hbot hc
      rw [wallTouch_iff, hd] at hw
      rcases hw with h | h
      · linarith
      · linarith
    · by_contra hc
      push_neg at hc
      have hd := htop hc
      rw [wallTouch_iff, hd] at hw
      rcases hw with h | h
      · linarith
      · linarith
  have hInitW : ¬wallTouch initLoop := by
    rw [wallTouch_iff]
    push_neg
    norm_num [initLoop, ballSpeed, canvasHeight]
  intro l2 hl2
  cases hscc : (update rng l).scorer with
  | none =>
    rw [step_frame_no_score rng hl hscc] at hl2
    have he : some (update rng l).state = some l2 := hl2
    rcases Option.some.inj he with rfl
    obtain ⟨hnL, hnR⟩ := scorer_none_not_crossed rng hscc
    have hs2 : (update rng l).state.ballY = l.ballY + l.ballDy := by
      rw [update_not_crossed rng hnL hnR]
    have hs3 : (update rng l).state.ballDy = newBallDy l := update_state_dy rng l
    rw [wallTouch_iff, hs2, hs3, hnd]
    push_neg
    constructor
    · linarith [hin.2]
    · linarith [hin.1]
  | some side =>
    cases side with
    | player1 =>
      rw [step_frame_scored_p1 rng hl hscc] at hl2
      rcases runLoopEffect_loop (checkWinner { s with score1 := s.score1 + 1, loop := some (update rng l).state }) with hro | hro
      · rw [hro] at hl2
        rcases Option.some.inj hl2 with rfl
        exact hInitW
      · rw [hro] at hl2
        simp at hl2
    | player2 =>
      rw [step_frame_scored_p2 rng hl hscc] at hl2
      rcases runLoopEffect_loop (checkWinner { s with score2 := s.score2 + 1, loop := some (update rng l).state }) with hro | hro
      · rw [hro] at hl2
        rcases Option.some.inj hl2 with rfl
        exact hInitW
      · rw [hro] at hl2
        simp at hl2

/-- The straight flight of the ball from the serve: after n frames with no
keys held and no collision yet, the ball sits at (400 + 0.3 n, 300 + 0.3 n)
with everything else as served. Valid up to the first wall touch. -/
def onCourse (n : ℕ) : LoopState :=
  { initLoop with ballX := 400 + 3 * (n : ℚ) / 10, ballY := 300 + 3 * (n : ℚ) / 10 }

/-- The playing session after n straight frames from sPlay. -/
def playCourse (n : ℕ) : Session := { sPlay with loop := some (onCourse n) }

theorem step_playCourse (n : ℕ) (hn : n < 973) :
    step (Event.frame rng0) (playCourse n) = playCourse (n + 1) := by
  have hc0 : (0:ℚ) ≤ (n:ℚ) := Nat.cast_nonneg n
  have hc972 : (n:ℚ) ≤ 972 := by exact_mod_cast Nat.lt_succ_iff.mp hn
  have hnL : ¬crossedLeft (onCourse n) := by
    intro h
    have h' : 400 + 3 * (n:ℚ) / 10 + 3/10 + 8 < 0 := h
    linarith
  have hnR : ¬crossedRight (onCourse n) := by
    intro h
    have h' : 400 + 3 * (n:ℚ) / 10 + 3/10 - 8 > 800 := h
    linarith
  have hnW : ¬wallTouch (onCourse n) := by
    rw [wallTouch_iff]
    push_neg
    have he : (onCourse n).ballY + (onCourse n).ballDy = 300 + 3 * (n:ℚ) / 10 + 3/10 := rfl
    rw [he]
    constructor
    · linarith
    · linarith
  have hnC : ¬contact (onCourse n) := by
    intro h
    rcases h with ⟨h1, -, -⟩ | ⟨h1, -, -⟩
    · have h' : 400 + 3 * (n:ℚ) / 10 + 3/10 - 8 < 10 := h1
      linarith
    · have h' : 400 + 3 * (n:ℚ) / 10 + 3/10 + 8 > 800 - 10 := h1
      linarith
  have hscorer : (update rng0 (onCourse n)).scorer = none := by
    rw [update_scorer, if_neg hnL, if_neg hnR]
  have hbx : (onCourse n).ballX + (onCourse n).ballDx = 400 + 3 * ((n + 1 : ℕ) : ℚ) / 10 := by
    show 400 + 3 * (n:ℚ) / 10 + 3/10 = 400 + 3 * ((n + 1 : ℕ) : ℚ) / 10
    push_cast
    ring
  have hby : (onCourse n).ballY + (onCourse n).ballDy = 300 + 3 * ((n + 1 : ℕ) : ℚ) / 10 := by
    show 300 + 3 * (n:ℚ) / 10 + 3/10 = 300 + 3 * ((n + 1 : ℕ) : ℚ) / 10
    push_cast
    ring
  have hdx : newBallDx (onCourse n) = ballSpeed := by
    unfold newBallDx
    rw [if_neg hnC]
    rfl
  have hdy : newBallDy (onCourse n) = ballSpeed := by
    unfold newBallDy
    rw [if_neg hnW]
    rfl
  have hparts : updateParticles (spawnedParticles rng0 (onCourse n)) = [] := by
    have hsp : spawnedParticles rng0 (onCourse n) = (onCourse n).particles := by
      simp only [spawnedParticles, if_neg hnW, if_neg hnC]
    rw [hsp]
    rfl
  have hupd : (update rng0 (onCourse n)).state = onCourse (n + 1) := by
    rw [update_not_crossed rng0 hnL hnR]
    rw [hbx, hby, hdx, hdy, hparts]
    rfl
  rw [step_frame_no_score rng0 (show (playCourse n).loop = some (onCourse n) from rfl) hscorer]
  rw [hupd]
  rfl

theorem onCourse_zero : onCourse 0 = initLoop := by
  unfold onCourse initLoop canvasWidth canvasHeight
  norm_num

theorem frames_playCourse : ∀ n, n ≤ 973 →
    (step (Event.frame rng0))^[n] sPlay = playCourse n := by
  intro n
  induction n with
  | zero =>
    intro _
    show sPlay = playCourse 0
    unfold playCourse
    rw [onCourse_zero]
    rfl
  | succ n ih =>
    intro hle
    rw [Function.iterate_succ_apply']
    rw [ih (by omega)]
    exact step_playCourse n (by omega)

theorem reach_frames (n : ℕ) : Reach ((step (Event.frame rng0))^[n] sPlay) := by
  induction n with
  | zero => exact Reach.next Event.start (Reach.next Event.start Reach.init)
  | succ n ih =>
    rw [Function.iterate_succ_apply']
    exact Reach.next _ ih

theorem reach_playCourse : Reach (playCourse 973) := by
  rw [← frames_playCourse 973 (le_refl _)]
  exact reach_frames 973

theorem wall973 : wallTouch (onCourse 973) := by
  rw [wallTouch_iff]
  left
  have he : (onCourse 973).ballY + (onCourse 973).ballDy =
      300 + 3 * ((973 : ℕ) : ℚ) / 10 + 3/10 := rfl
  rw [he]
  push_cast
  norm_num

/-- C7, witness: after 973 straight frames from the serve the session
playCourse 973 is reachable, its ball touches the bottom wall, and the
theorem applies to it. -/
theorem c7_witness :
    (update rng0 (onCourse 973)).state.ballDy = -(onCourse 973).ballDy ∧
    SoundEvent.wall ∈ (update rng0 (onCourse 973)).sounds ∧
    ((onCourse 973).ballX + (onCourse 973).ballDx,
      (onCourse 973).ballY + (onCourse 973).ballDy, (10:ℕ)) ∈
        (update rng0 (onCourse 973)).bursts ∧
    ∀ l2, (step (Event.frame rng0) (playCourse 973)).loop = some l2 → ¬wallTouch l2 :=
  c7_theorem rng0 reach_playCourse rfl wall973

/-! ### C1 -/

/-- The session after one frame of play: the ball has moved to
(400.3, 300.3). -/
def sMoved : Session := step (Event.frame rng0) sPlay

/-- The loop state the frame of sMoved produced. -/
def midLoop : LoopState :=
  { ballX := 4003/10, ballY := 3003/10, ballDx := 3/10, ballDy := 3/10,
    paddle1Y := 250, paddle2Y := 250, particles := [], keys := noKeys }

/-- Pausing with escape after that frame. -/
def sPausedMid : Session := step Event.escape sMoved

/-- Resuming from the pause menu. -/
def sResumed : Session := step Event.resume sPausedMid

/-- C1, counterexample to the claim as stated: pausing after one frame and
resuming does not continue from the suspended state. At suspension the live
loop state was midLoop with the ball at (400.3, 300.3); after resume the
live loop state is initLoop with the ball re-centred at (400, 300), the
paddles re-centred and the particles discarded, because the loop effect
re-runs from scratch (gamePaused is in its dependency array). -/
theorem c1_counterexample :
    sMoved.loop = some midLoop ∧
    sPausedMid.gamePaused = true ∧
    sResumed.gamePaused = false ∧
    sResumed.loop = some initLoop ∧
    midLoop ≠ initLoop := by
  have hstate : (update rng0 initLoop).state = midLoop := by
    norm_num [update, crossedLeft, crossedRight, wallTouch, contact, paddleContact,
      movePaddle, newBallDx, newBallDy, spawnedParticles, updateParticles,
      createParticles, frameSounds, frameBursts, initLoop, midLoop, noKeys, ballRadius,
      ballSpeed, canvasWidth, canvasHeight, paddleWidth, paddleHeight, paddleSpeed]
  have hMoved : sMoved = { sPlay with loop := some midLoop } := by
    have h := step_frame_no_score rng0 (show sPlay.loop = some initLoop from rfl)
      (update_initLoop_scorer rng0)
    rw [show sMoved = step (Event.frame rng0) sPlay from rfl, h, hstate]
  have hPaused : sPausedMid = { sPlay with gamePaused := true, showPauseMenu := true, loop := none } := by
    rw [show sPausedMid = step Event.escape sMoved from rfl, hMoved]
    have h := step_escape_some (show ({ sPlay with loop := some midLoop } : Session).loop
      = some midLoop from rfl)
    rw [h]
    rw [refresh_ne (by unfold loopDeps; simp [sPlay_eq])]
    rw [runLoopEffect_stopped _ (by intro hc; exact absurd hc.2 (by simp))]
  have hResumed : sResumed = { sPlay with loop := some initLoop } := by
    rw [show sResumed = step Event.resume sPausedMid from rfl, hPaused, step_resume]
    rw [refresh_ne (by unfold loopDeps; simp [sPlay_eq])]
    rw [runLoopEffect_playing _ rfl rfl]
    rfl
  refine ⟨by rw [hMoved], by rw [hPaused], by rw [hResumed]; rfl, by rw [hResumed], ?_⟩
  intro h
  have hx := congrArg LoopState.ballX h
  norm_num [midLoop, initLoop, canvasWidth] at hx

/-- C1, amended: while gamePaused is set (the Paused phase, and SettingsOpen
reached from the pause menu, which leaves gamePaused set), no frame runs and
no ball, paddle, score or particle state changes; resuming clears the pause
flag and preserves both scores, but re-creates the loop-local simulation
state from scratch (ball re-centred with the serve velocity, paddles
re-centred, particles discarded, key flags cleared) instead of continuing
from the suspended state. -/
theorem c1_theorem {s : Session} (rng : ℕ → ℚ × ℚ) (hr : Reach s)
    (hp : s.gamePaused = true) :
    step (Event.frame rng) s = s ∧
    (step Event.resume s).gamePaused = false ∧
    (step Event.resume s).loop = (if s.gameStarted = true then some initLoop else none) ∧
    (step Event.resume s).score1 = s.score1 ∧
    (step Event.resume s).score2 = s.score2 := by
  have hnone := reach_paused_loop_none hr hp
  have hne : loopDeps s ≠ loopDeps { s with gamePaused := false, showPauseMenu := false } := by
    unfold loopDeps
    simp [hp]
  have hres : step Event.resume s =
      runLoopEffect { s with gamePaused := false, showPauseMenu := false } := by
    rw [step_resume]
    exact refresh_ne hne
  refine ⟨step_frame_none rng hnone, ?_, ?_, ?_, ?_⟩
  · rw [hres]
    exact (runLoopEffect_fields _).2.2.2.2
  · rw [hres]
    by_cases hg : s.gameStarted = true
    · rw [if_pos hg]
      exact runLoopEffect_loop_some _ hg rfl
    · rw [if_neg hg]
      have hg' : s.gameStarted = false := by
        cases hgb : s.gameStarted
        · rfl
        · exact absurd hgb hg
      exact runLoopEffect_loop_none _ hg'
  · rw [hres]
    exact (runLoopEffect_fields _).1
  · rw [hres]
    exact (runLoopEffect_fields _).2.1

/-- The session paused right after the start, reached without any frame. -/
def sPaused : Session := step Event.escape sPlay

/-- C1, witness: the amended theorem applied to the reachable paused session
sPaused. -/
theorem c1_witness :
    step (Event.frame rng0) sPaused = sPaused ∧
    (step Event.resume sPaused).gamePaused = false ∧
    (step Event.resume sPaused).loop =
      (if sPaused.gameStarted = true then some initLoop else none) ∧
    (step Event.resume sPaused).score1 = sPaused.score1 ∧
    (step Event.resume sPaused).score2 = sPaused.score2 :=
  c1_theorem rng0
    (Reach.next Event.escape (Reach.next Event.start (Reach.next Event.start Reach.init)))
    rfl

end Pong
